import Mathlib

/-!
Verification development for the randshow pseudo-random number library.

The definitions below are a shallow embedding of the C++ sources
(`src/unnamed/part_001` is the richest revision; `src/unnamed/part_000` and
`src/include/randshow.hpp` are earlier revisions of the same header).
Machine integers are modelled as `Nat` with explicit reduction modulo
`2 ^ 64` (`W64`) or `2 ^ 128` (`W128`) exactly where the C++ types wrap.
The engine-independent draw of `std::uniform_int_distribution` is abstracted
as an oracle function `dist` receiving the inclusive bounds and the engine
state and returning a value together with the successor state; invoking the
oracle models the fact that a draw is performed on the engine.
-/

set_option maxRecDepth 8192

namespace Randshow

/-- Word bound for 64-bit unsigned arithmetic (`uint64_t` wraps modulo this). -/
def W64 : Nat := 2 ^ 64

/-- Word bound for 128-bit unsigned arithmetic (`__uint128_t` wraps modulo this). -/
def W128 : Nat := 2 ^ 128

/-- Numeric value of `W64`, for arithmetic automation. -/
theorem W64_eq : W64 = 18446744073709551616 := by norm_num [W64]

/-- Embedding of `detail::Rotr32` (src/unnamed/part_001 lines 14-16):
`(x >> r) | (x << (32 - r))` on `uint32_t`. -/
def Rotr32 (x r : Nat) : Nat := ((x >>> r) ||| (x <<< (32 - r))) % 2 ^ 32

/-- Embedding of `detail::Rotr64` (src/unnamed/part_001 lines 20-22):
`(x >> r) | (x << (64 - r))` on `uint64_t`. -/
def Rotr64 (x r : Nat) : Nat := ((x >>> r) ||| (x <<< (64 - r))) % W64

/-- Embedding of `detail::Rotl64` (src/unnamed/part_001 lines 23-25):
`(x << r) | (x >> (64 - r))` on `uint64_t`. -/
def Rotl64 (x r : Nat) : Nat := ((x <<< r) ||| (x >>> (64 - r))) % W64

/-- Embedding of `RNG::Next(T a, T b)` (src/unnamed/part_001 lines 50-55) for an
unsigned 64-bit result type: `if (a > b - 1) return a;` where `b - 1` wraps
modulo `2 ^ 64`, otherwise draw from `std::uniform_int_distribution(a, b - 1)`,
abstracted as the oracle `dist` applied to the bounds and the engine state. -/
def NextAB {σ : Type} (dist : Nat → Nat → σ → Nat × σ) (a b : Nat) (s : σ) : Nat × σ :=
  if (b + (W64 - 1)) % W64 < a then (a, s)
  else dist a ((b + (W64 - 1)) % W64) s

/-- Number of iterations of the `Shuffle` loop (src/unnamed/part_001 line 89):
`for (size_t i = 0; i != length - 2; i++)`, where `length - 2` is computed in
`size_t`, wrapping modulo `2 ^ 64`; the counter visits `0, 1, ...` up to that
wrapped value (exclusive). -/
def shuffleIterCount (length : Nat) : Nat := (length + (W64 - 2)) % W64

/-- Swap of two positions of a list, embedding `std::swap(*(begin + i), *(begin + j))`;
positions outside the range are modelled as leaving the list unchanged (in the
C++ source such an access is out of bounds). -/
def listSwap {α : Type} (l : List α) (i j : Nat) : List α :=
  if h : i < l.length ∧ j < l.length then
    (l.set i (l.get ⟨j, h.2⟩)).set j (l.get ⟨i, h.1⟩)
  else l

/-- Embedding of `Shuffle` (src/unnamed/part_001 lines 85-92): guard
`if (begin >= end) return;`, then for each loop index `i` (see
`shuffleIterCount`) draw `j = g.Next(i, length)` and swap positions `i`
and `j`. -/
def Shuffle {σ α : Type} (dist : Nat → Nat → σ → Nat × σ) (l : List α) (s : σ) :
    List α × σ :=
  if l.length = 0 then (l, s)
  else
    (List.range (shuffleIterCount l.length)).foldl
      (fun p i =>
        let js := NextAB dist i l.length p.2
        (listSwap p.1 i js.1, js.2)) (l, s)

/-- Embedding of the `n <= k` branch of `Sample` (src/unnamed/part_001 lines
101-108): the reservoir is created with `min(n, k) = n` slots, filled by
`std::iota` with the positions `0, ..., n - 1`, then passed to `Shuffle`.
The `n > k` branch performs floating-point skip computations and lies outside
the embedded fragment. -/
def SampleLe {σ : Type} (dist : Nat → Nat → σ → Nat × σ) (n : Nat) (s : σ) :
    List Nat × σ :=
  Shuffle dist (List.range n) s

/-- Parameter block of the `LCG` engine (src/unnamed/part_001 lines 170-173). -/
structure LCGParams where
  mul : Nat
  inc : Nat
  mod : Nat
deriving DecidableEq

/-- Default LCG parameters (src/unnamed/part_001 lines 171-173):
multiplier `6458928179451363983`, increment `0`, modulus `2^63 - 25`. -/
def LCG.defaultParams : LCGParams := ⟨6458928179451363983, 0, 2 ^ 63 - 25⟩

/-- Embedding of `LCG::Advance` (src/unnamed/part_001 lines 161-164):
`state_ = (mul_ * state_ + inc_) % mod_; return state_;` with the multiply-add
performed in `uint64_t` (wrapping modulo `2 ^ 64`). The first component is the
returned value, the second the new stored state. -/
def LCG.advance (p : LCGParams) (state : Nat) : Nat × Nat :=
  let s := ((p.mul * state + p.inc) % W64) % p.mod
  (s, s)

/-- State after `n` successive calls of `LCG::Advance` starting from seed `s`. -/
def LCG.iterate (p : LCGParams) (s : Nat) : Nat → Nat
  | 0 => s
  | n + 1 => (LCG.advance p (LCG.iterate p s n)).2

/-- Multiplier of the 64-bit PCG state transition
(src/unnamed/part_001 line 177). -/
def PCG32.MUL : Nat := 6364136223846793005

/-- Increment of the 64-bit PCG state transition
(src/unnamed/part_001 line 178). -/
def PCG32.INC : Nat := 1442695040888963407

/-- Output permutation of `PCG32::Advance` (src/unnamed/part_001 lines 196-197)
applied to the pre-advance state `x`:
`xorshifted = ((x >> 18) ^ x) >> 27` truncated to `uint32_t`, then
`Rotr32(xorshifted, x >> 59)`. -/
def PCG32.output (x : Nat) : Nat :=
  Rotr32 ((((x >>> 18) ^^^ x) >>> 27) % 2 ^ 32) (x >>> 59)

/-- Embedding of `PCG32::Advance` (src/unnamed/part_001 lines 193-198):
returns the permuted pre-advance state and the advanced state
`MUL64 * state + INC64` modulo `2 ^ 64`. -/
def PCG32.advance (st : Nat) : Nat × Nat :=
  (PCG32.output st, (PCG32.MUL * st + PCG32.INC) % W64)

/-- State immediately after `PCG32(uint64_t seed)` (src/unnamed/part_001 line
191): the constructor stores the seed and then calls `Advance()` once,
discarding its output. -/
def PCG32.ofSeed (seed : Nat) : Nat := (PCG32.advance (seed % W64)).2

/-- Result of the first `Next()` call on a freshly seeded `PCG32`. -/
def PCG32.firstNext (seed : Nat) : Nat := (PCG32.advance (PCG32.ofSeed seed)).1

/-- 128-bit multiplier `pcg_detail::MUL128` (src/unnamed/part_001 lines 179-180). -/
def PCG64.MUL128 : Nat := 2549297995355413924 * 2 ^ 64 + 4865540595714422341

/-- 128-bit increment `pcg_detail::INC128` (src/unnamed/part_001 lines 181-182). -/
def PCG64.INC128 : Nat := 6364136223846793005 * 2 ^ 64 + 1442695040888963407

/-- Output permutation of `PCG64::Advance` (src/unnamed/part_001 lines 220-221)
applied to the pre-advance 128-bit state `x`:
`count = x >> 122` (top 6 bits), then `Rotr64(x ^ (x >> 64), count)`, the
argument being truncated to `uint64_t` when passed to `Rotr64`. -/
def PCG64.output (x : Nat) : Nat :=
  Rotr64 ((x ^^^ (x >>> 64)) % W64) (x >>> 122)

/-- Embedding of `PCG64::Advance` (src/unnamed/part_001 lines 217-222):
returns the permuted pre-advance state and the advanced state
`MUL128 * state + INC128` modulo `2 ^ 128`. -/
def PCG64.advance (st : Nat) : Nat × Nat :=
  (PCG64.output st, (PCG64.MUL128 * st + PCG64.INC128) % W128)

/-- State immediately after `PCG64(uint64_t seed)` (src/unnamed/part_001 line
215): the constructor stores the seed (zero-extended to 128 bits) and then
calls `Advance()` once, discarding its output. -/
def PCG64.ofSeed (seed : Nat) : Nat := (PCG64.advance (seed % W64)).2

/-- Result of the first `Next()` call on a freshly seeded `PCG64`. -/
def PCG64.firstNext (seed : Nat) : Nat := (PCG64.advance (PCG64.ofSeed seed)).1

/-- Additive constant of the SplitMix64 state transition
(src/unnamed/part_001 line 242). -/
def SplitMix64.GAMMA : Nat := 0x9E3779B97f4A7C15

/-- First finalization multiplier of SplitMix64 (src/unnamed/part_001 line 243). -/
def SplitMix64.M1 : Nat := 0xBF58476D1CE4E5B9

/-- Second finalization multiplier of SplitMix64 (src/unnamed/part_001 line 244). -/
def SplitMix64.M2 : Nat := 0x94D049BB133111EB

/-- Embedding of `SplitMix64::Advance` (src/unnamed/part_001 lines 241-246):
`result = (state_ += GAMMA)`, two xorshift-multiply rounds, one final
xorshift; all arithmetic in `uint64_t`. First component is the returned
value, second the new stored state. -/
def SplitMix64.advance (state : Nat) : Nat × Nat :=
  let s := (state + SplitMix64.GAMMA) % W64
  let r1 := ((s ^^^ (s >>> 30)) * SplitMix64.M1) % W64
  let r2 := ((r1 ^^^ (r1 >>> 27)) * SplitMix64.M2) % W64
  (r2 ^^^ (r2 >>> 31), s)

/-- Generic xorshift-multiply finalization round: XOR the value with a right
shift of itself, then multiply by a constant, in `uint64_t` arithmetic. -/
def xorShiftMulRound (c sh x : Nat) : Nat := ((x ^^^ (x >>> sh)) * c) % W64

/-- Generic final xorshift: XOR the value with a right shift of itself. -/
def xorShift (sh x : Nat) : Nat := x ^^^ (x >>> sh)

/-- Four 64-bit state words of `Xoshiro256PlusPlus`
(src/unnamed/part_001 line 296). -/
structure XoState where
  s0 : Nat
  s1 : Nat
  s2 : Nat
  s3 : Nat
deriving DecidableEq

/-- Embedding of the seeding constructor body of `Xoshiro256PlusPlus`
(src/unnamed/part_001 lines 269-278): two `SplitMix64` draws `t`; the word
assignments are `s_[0] = t; s_[1] = t >> 32;` and `s_[2] = t; s_[3] = t >> 32;`
for the second draw (`s_[0]` and `s_[2]` receive the full 64-bit values). -/
def Xoshiro256PlusPlus.init (seed : Nat) : XoState :=
  let a := SplitMix64.advance (seed % W64)
  let b := SplitMix64.advance a.2
  ⟨a.1, a.1 >>> 32, b.1, b.1 >>> 32⟩

/-- Embedding of `Xoshiro256PlusPlus::Advance` (src/unnamed/part_001 lines
280-293): `result = Rotl64(s0 + s3, 23) + s0`, `t = s1 << 17`, then the XOR
cascade `s2 ^= s0; s3 ^= s1; s1 ^= s2; s0 ^= s3;` (each using the already
updated words where the source does), `s2 ^= t`, `s3 = Rotl64(s3, 45)`. -/
def Xoshiro256PlusPlus.advance (st : XoState) : Nat × XoState :=
  let result := (Rotl64 ((st.s0 + st.s3) % W64) 23 + st.s0) % W64
  let t := (st.s1 <<< 17) % W64
  let s2a := st.s2 ^^^ st.s0
  let s3a := st.s3 ^^^ st.s1
  let s1a := st.s1 ^^^ s2a
  let s0a := st.s0 ^^^ s3a
  (result, ⟨s0a, s1a, s2a ^^^ t, Rotl64 s3a 45⟩)

/-- Bit-level characterization of `Rotr64`: for a 64-bit value and a rotation
count below 64, bit `i` of the rotation is bit `(i + r) mod 64` of the input. -/
theorem testBit_rotr64 (v r i : Nat) (hv : v < W64) (hr : r < 64) (hi : i < 64) :
    (Rotr64 v r).testBit i = v.testBit ((i + r) % 64) := by
  have hv2 : v < 2 ^ 64 := by simpa [W64] using hv
  have h2 : Rotr64 v r = ((v >>> r) ||| (v <<< (64 - r))) % 2 ^ 64 := by
    simp [Rotr64, W64]
  rw [h2, Nat.testBit_mod_two_pow, Nat.testBit_or, Nat.testBit_shiftRight,
    Nat.testBit_shiftLeft]
  rcases Nat.lt_or_ge (i + r) 64 with hc | hc
  · have e1 : (i + r) % 64 = i + r := Nat.mod_eq_of_lt hc
    have e2 : ¬ (i ≥ 64 - r) := by omega
    simp [hi, e1, e2, Nat.add_comm r i]
  · have e1 : (i + r) % 64 = i + r - 64 := by omega
    have e2 : i ≥ 64 - r := by omega
    have e3 : v.testBit (r + i) = false := by
      apply Nat.testBit_lt_two_pow
      calc v < 2 ^ 64 := hv2
        _ ≤ 2 ^ (r + i) := Nat.pow_le_pow_right (by norm_num) (by omega)
    have e4 : i - (64 - r) = i + r - 64 := by omega
    simp [hi, e1, e2, e3, e4]

/-- C1: the claim states that `Shuffle`, on a non-empty non-inverted range of
length `L`, iterates `i` over `0 .. L - 2` inclusive, drawing and swapping at
each iteration. The code is a slip: the loop condition `i != length - 2` stops
at `L - 3`, so on a two-element range the loop body never runs — no draw is
made and no swap is performed (`shuffleIterCount 2 = 0`), and on a
three-element range only `i = 0` runs (`shuffleIterCount 3 = 1`). -/
theorem c1_shuffle_loop_under_iterates :
    (∀ (σ : Type) (dist : Nat → Nat → σ → Nat × σ) (x y : Nat) (s : σ),
        Shuffle dist [x, y] s = ([x, y], s)) ∧
    shuffleIterCount 2 = 0 ∧ shuffleIterCount 3 = 1 := by
  refine ⟨fun σ dist x y s => ?_, rfl, rfl⟩
  have h : shuffleIterCount (2 : Nat) = 0 := rfl
  simp [Shuffle, h]

/-- C2 counterexample: the claim states that `Next(a, b)` with `a >= b` returns
`a` without drawing; at `a = b = 0` (the `Next(0)` case on an unsigned result
type) the guard `a > b - 1` compares `0` against the wrapped value `2^64 - 1`
and fails, so the distribution is invoked and the engine advances: with a draw
oracle returning value `7` and incrementing the state, the call returns
`(7, 1)`, not `(0, 0)`. -/
theorem c2_next_zero_upper_draws :
    NextAB (fun _ _ (s : Nat) => (7, s + 1)) 0 0 0 = (7, 1) ∧
    ((7, 1) : Nat × Nat) ≠ (0, 0) :=
  ⟨rfl, by decide⟩

/-- C2 amended: for `1 <= b <= a < 2^64` the ranged draw `Next(a, b)` returns
`a` and leaves the engine state untouched (no oracle invocation); the case
`b = 0` is excluded because there the wrapped guard fails and a draw occurs. -/
theorem c2_next_lower_ge_upper (σ : Type) (dist : Nat → Nat → σ → Nat × σ)
    (a b : Nat) (s : σ) (hb : 1 ≤ b) (hba : b ≤ a) (ha : a < W64) :
    NextAB dist a b s = (a, s) := by
  rw [W64_eq] at ha
  have hw : (b + (W64 - 1)) % W64 = b - 1 := by
    rw [W64_eq]
    omega
  simp only [NextAB, hw]
  rw [if_pos (by omega)]

/-- Witness for C2: `Next(5, 3)` returns `5` with the state unchanged. -/
theorem c2_next_lower_ge_upper_witness :
    NextAB (fun _ _ (s : Nat) => (9, s + 1)) 5 3 0 = (5, 0) :=
  c2_next_lower_ge_upper Nat (fun _ _ s => (9, s + 1)) 5 3 0 (by norm_num)
    (by norm_num) (by norm_num [W64])

/-- C3 counterexample: the claim states that the PCG64 output permutation
performs two independent rotations (one per 64-bit half of the state) and
recombines them into the output. The two concrete pre-advance states
`2^64 + 1` and `2*2^64 + 2` have equal XOR-folds (`0`) and equal top-6-bit
rotation counts (`0`) but different high halves whose rotations differ
(`Rotr64 1 0 = 1` versus `Rotr64 2 0 = 2`); the code nevertheless produces
identical outputs for both states, so no rotation of the high half is
recombined into the output — the permutation is a single rotation of the
fold. -/
theorem c3_pcg64_high_half_collision :
    PCG64.output (2 ^ 64 + 1) = PCG64.output (2 * 2 ^ 64 + 2) ∧
    (2 ^ 64 + 1) >>> 64 ≠ (2 * 2 ^ 64 + 2) >>> 64 ∧
    Rotr64 ((2 ^ 64 + 1) >>> 64) 0 ≠ Rotr64 ((2 * 2 ^ 64 + 2) >>> 64) 0 := by
  refine ⟨by decide, by decide, by decide⟩

/-- C3 amended: the PCG64 output permutation computes the rotation count from
the top 6 bits of the pre-advance 128-bit state (`x >>> 122 < 64`), XORs the
two 64-bit halves of the state together, and performs a single 64-bit right
rotation of the folded value by that count: bit `i` of the output is bit
`(i + count) mod 64` of the fold. -/
theorem c3_pcg64_single_rotation (x i : Nat) (hx : x < W128) (hi : i < 64) :
    x >>> 122 < 64 ∧
    PCG64.output x = Rotr64 ((x % W64) ^^^ (x >>> 64)) (x >>> 122) ∧
    (PCG64.output x).testBit i =
      ((x ^^^ (x >>> 64)) % W64).testBit ((i + (x >>> 122)) % 64) := by
  have hx2 : x < 2 ^ 128 := by simpa [W128] using hx
  have hcount : x >>> 122 < 64 := by
    rw [Nat.shiftRight_eq_div_pow]
    rw [Nat.div_lt_iff_lt_mul (by positivity)]
    calc x < 2 ^ 128 := hx2
      _ = 64 * 2 ^ 122 := by norm_num
  have hsr : x >>> 64 < 2 ^ 64 := by
    rw [Nat.shiftRight_eq_div_pow]
    rw [Nat.div_lt_iff_lt_mul (by positivity)]
    calc x < 2 ^ 128 := hx2
      _ = 2 ^ 64 * 2 ^ 64 := by norm_num
  have hfold_eq : (x ^^^ (x >>> 64)) % W64 = (x % W64) ^^^ (x >>> 64) := by
    apply Nat.eq_of_testBit_eq
    intro j
    simp only [W64, Nat.testBit_mod_two_pow, Nat.testBit_xor]
    by_cases hj : j < 64
    · simp [hj]
    · have hb1 : (x >>> 64).testBit j = false := by
        apply Nat.testBit_lt_two_pow
        calc x >>> 64 < 2 ^ 64 := hsr
          _ ≤ 2 ^ j := Nat.pow_le_pow_right (by norm_num) (by omega)
      simp [hj, hb1]
  refine ⟨hcount, ?_, ?_⟩
  · simp only [PCG64.output]
    rw [hfold_eq]
  · simp only [PCG64.output]
    exact testBit_rotr64 _ _ i
      (Nat.mod_lt _ (show 0 < W64 by norm_num [W64])) hcount hi

/-- Witness for C3 at the concrete state `2^122 * 5 + 2^64 * 3 + 12345` and
bit index `7`. -/
theorem c3_pcg64_single_rotation_witness :
    (2 ^ 122 * 5 + 2 ^ 64 * 3 + 12345) >>> 122 < 64 ∧
    PCG64.output (2 ^ 122 * 5 + 2 ^ 64 * 3 + 12345) =
      Rotr64 (((2 ^ 122 * 5 + 2 ^ 64 * 3 + 12345) % W64) ^^^
          ((2 ^ 122 * 5 + 2 ^ 64 * 3 + 12345) >>> 64))
        ((2 ^ 122 * 5 + 2 ^ 64 * 3 + 12345) >>> 122) ∧
    (PCG64.output (2 ^ 122 * 5 + 2 ^ 64 * 3 + 12345)).testBit 7 =
      (((2 ^ 122 * 5 + 2 ^ 64 * 3 + 12345) ^^^
          ((2 ^ 122 * 5 + 2 ^ 64 * 3 + 12345) >>> 64)) % W64).testBit
        ((7 + ((2 ^ 122 * 5 + 2 ^ 64 * 3 + 12345) >>> 122)) % 64) :=
  c3_pcg64_single_rotation (2 ^ 122 * 5 + 2 ^ 64 * 3 + 12345) 7
    (by norm_num [W128]) (by norm_num)

/-- C4 counterexample: the claim states that state word 0 of a seeded
Xoshiro256++ is the low 32-bit half of the first SplitMix64 output; in the
code `s_[0] = t` stores the full 64-bit output, so for seed 0 word 0 differs
from the low half. -/
theorem c4_word0_not_low_half :
    (Xoshiro256PlusPlus.init 0).s0 ≠ (SplitMix64.advance 0).1 % 2 ^ 32 := by
  decide

/-- C4 amended: seeding Xoshiro256++ performs two SplitMix64 `Next()` calls;
words 0 and 2 receive the full 64-bit outputs, words 1 and 3 their high
32-bit halves. For seed 0 the four words and the first `Advance` output
computed from them are the exact literals below (in the part_001 revision the
seeded constructor itself consumes that first output). -/
theorem c4_xoshiro_seed0_literals :
    Xoshiro256PlusPlus.init 0 =
      ⟨0xE220A8397B1DCDAF, 0xE220A839, 0x6E789E6AA1B965F4, 0x6E789E6A⟩ ∧
    (Xoshiro256PlusPlus.init 0).s1 = (Xoshiro256PlusPlus.init 0).s0 >>> 32 ∧
    (Xoshiro256PlusPlus.init 0).s3 = (Xoshiro256PlusPlus.init 0).s2 >>> 32 ∧
    (Xoshiro256PlusPlus.advance (Xoshiro256PlusPlus.init 0)).1 =
      18380724377043787267 :=
  ⟨by decide, by decide, by decide, by decide⟩

/-- C5: the claim states that `Sample` returns `min(n, k)` positions, each
source position exactly once when `n <= k`. On a one-element source range with
`k = 1` the `n <= k` branch passes the single-slot reservoir to `Shuffle`,
whose `size_t` loop bound `length - 2` wraps to `2^64 - 1`: the loop visits
the out-of-bounds index `1` (and every larger index below `2^64 - 1`) on a
reservoir of length `1`, instead of returning the single element. -/
theorem c5_sample_single_element_oob :
    (∀ (σ : Type) (dist : Nat → Nat → σ → Nat × σ) (s : σ),
        SampleLe dist 1 s = Shuffle dist (List.range 1) s) ∧
    (List.range 1).length = 1 ∧
    shuffleIterCount (List.range 1).length = W64 - 1 ∧
    1 ∈ List.range (shuffleIterCount (List.range 1).length) := by
  refine ⟨fun _ _ _ => rfl, rfl, rfl, ?_⟩
  have h : shuffleIterCount (List.range 1).length = W64 - 1 := rfl
  rw [List.mem_range, h, W64_eq]
  norm_num

/-- C6: an LCG with the default parameters and seed `1` returns, from its first
`Next()` call, exactly `(6458928179451363983 * 1 + 0) mod (2^63 - 25)`, which
equals the multiplier itself; and in general the value returned by
`LCG::Advance` is the new post-transition state. -/
theorem c6_lcg_seed1_first_output :
    (LCG.advance LCG.defaultParams 1).1 =
      (6458928179451363983 * 1 + 0) % (2 ^ 63 - 25) ∧
    (LCG.advance LCG.defaultParams 1).1 = 6458928179451363983 ∧
    ∀ (p : LCGParams) (s : Nat), (LCG.advance p s).1 = (LCG.advance p s).2 :=
  ⟨by decide, by decide, fun _ _ => rfl⟩

/-- C7: every SplitMix64 `Next()` advances the state by adding the golden-ratio
constant modulo `2^64` and returns the advanced state passed through two
xorshift-multiply rounds (shifts 30 and 27, multipliers `M1` and `M2`)
followed by a final xorshift by 31; the first output for stored state 0 is the
published test-vector value `0xE220A8397B1DCDAF`. -/
theorem c7_splitmix_advance_structure :
    (∀ s : Nat, SplitMix64.advance s =
      (xorShift 31 (xorShiftMulRound SplitMix64.M2 27
          (xorShiftMulRound SplitMix64.M1 30 ((s + SplitMix64.GAMMA) % W64))),
        (s + SplitMix64.GAMMA) % W64)) ∧
    (SplitMix64.advance 0).1 = 0xE220A8397B1DCDAF ∧
    (SplitMix64.advance 0).2 = 0x9E3779B97f4A7C15 :=
  ⟨fun _ => rfl, by decide, by decide⟩

/-- C9: whenever the modulus is nonzero, the stored LCG state is strictly
below the modulus after any positive number of `Advance` calls, regardless of
the initial seed; every subsequent draw therefore preserves the invariant. -/
theorem c9_lcg_state_lt_mod (p : LCGParams) (s n : Nat) (hm : p.mod ≠ 0)
    (hn : 1 ≤ n) : LCG.iterate p s n < p.mod := by
  cases n with
  | zero => omega
  | succ m =>
      simp only [LCG.iterate, LCG.advance]
      exact Nat.mod_lt _ (Nat.pos_of_ne_zero hm)

/-- Witness for C9: with the default parameters and seed 1, the state after
one advance is below the modulus. -/
theorem c9_lcg_state_lt_mod_witness :
    LCG.iterate LCG.defaultParams 1 1 < LCG.defaultParams.mod :=
  c9_lcg_state_lt_mod LCG.defaultParams 1 1 (by decide) (by norm_num)

/-- C10: seeding a PCG32 or PCG64 performs one state advance inside the
constructor, so the stored state immediately after construction is
`mul * seed + inc` reduced modulo `2^64` (PCG32) or `2^128` (PCG64), not the
seed itself (checked concretely at seed 1), and the first `Next()` output is
the permutation of that advanced state, not of the seed. -/
theorem c10_pcg_ctor_advances :
    (∀ s : Nat, PCG32.ofSeed s = (PCG32.MUL * (s % W64) + PCG32.INC) % W64) ∧
    (∀ s : Nat, PCG32.firstNext s =
      PCG32.output ((PCG32.MUL * (s % W64) + PCG32.INC) % W64)) ∧
    PCG32.ofSeed 1 ≠ 1 ∧
    PCG32.firstNext 1 ≠ PCG32.output 1 ∧
    (∀ s : Nat, PCG64.ofSeed s =
      (PCG64.MUL128 * (s % W64) + PCG64.INC128) % W128) ∧
    (∀ s : Nat, PCG64.firstNext s =
      PCG64.output ((PCG64.MUL128 * (s % W64) + PCG64.INC128) % W128)) ∧
    PCG64.ofSeed 1 ≠ 1 ∧
    PCG64.firstNext 1 ≠ PCG64.output 1 :=
  ⟨fun _ => rfl, fun _ => rfl, by decide, by decide, fun _ => rfl, fun _ => rfl,
    by decide, by decide⟩

end Randshow
